import Mathlib

/-!
Verification of the ZenKai dungeon generator (`procgen.py`, `tile_types.py`).

The Python source is shallowly embedded:
* Python `int` becomes `Int`; `int((a)/2)` (float division then truncation
  toward zero) becomes `Int.tdiv a 2`, exact on every value the generator
  produces.
* The process-wide `random` module becomes an explicit stream `RNG` threaded
  through every draw; `random.randint` raises `ValueError` on an empty range,
  embedded as `Except.error`; `random.random()` (a float in `[0,1)` compared
  against `0.5` and `0.8`) is embedded as a rational in `[0,1)`.
* `tcod.los.bresenham` is an external library routine; it is embedded as the
  standard integer Bresenham line rasterizer, inclusive of both endpoints.
* `game_map.GameMap`, `Entity.place` and `entity_factories.*.spawn` are not
  part of the given sources; they are modelled from the spec where noted.
-/

namespace ZenKai

/-- A graphic cell: codepoint, foreground RGB, background RGB
(`graphic_dt` in `tile_types.py`). -/
structure Graphic where
  ch : Nat
  fg : Nat × Nat × Nat
  bg : Nat × Nat × Nat
deriving DecidableEq

/-- A tile record: walkability, transparency, dark and light graphics
(`tile_dt` in `tile_types.py`). -/
structure Tile where
  walkable : Bool
  transparent : Bool
  dark : Graphic
  light : Graphic
deriving DecidableEq

/-- `tile_types.new_tile`. -/
def new_tile (walkable transparent : Bool) (dark light : Graphic) : Tile :=
  ⟨walkable, transparent, dark, light⟩

/-- `tile_types.SHROUD`. -/
def SHROUD : Graphic := ⟨32, (255, 255, 255), (0, 0, 0)⟩

/-- `tile_types.floor`. -/
def floor : Tile :=
  new_tile true true ⟨32, (255, 255, 255), (21, 31, 44)⟩ ⟨32, (255, 255, 255), (200, 180, 50)⟩

/-- `tile_types.wall`. -/
def wall : Tile :=
  new_tile false false ⟨32, (255, 255, 255), (1, 3, 12)⟩ ⟨32, (255, 255, 255), (130, 110, 50)⟩

/-- `RectangularRoom`: top-left corner `(x1, y1)`, bottom-right `(x2, y2)`. -/
structure RectangularRoom where
  x1 : Int
  y1 : Int
  x2 : Int
  y2 : Int
deriving DecidableEq

/-- `RectangularRoom.__init__`: bottom-right corner computed from width and height. -/
def RectangularRoom.make (x y width height : Int) : RectangularRoom :=
  ⟨x, y, x + width, y + height⟩

/-- `RectangularRoom.center`: Python `int((x1+x2)/2)` truncates toward zero,
which is `Int.tdiv`. -/
def RectangularRoom.center (r : RectangularRoom) : Int × Int :=
  (Int.tdiv (r.x1 + r.x2) 2, Int.tdiv (r.y1 + r.y2) 2)

/-- `RectangularRoom.inner`: the two half-open slices
`slice(x1+1, x2)`, `slice(y1+1, y2)` as pairs of bounds. -/
def RectangularRoom.inner (r : RectangularRoom) : (Int × Int) × (Int × Int) :=
  ((r.x1 + 1, r.x2), (r.y1 + 1, r.y2))

/-- `RectangularRoom.intersects`. -/
def RectangularRoom.intersects (r other : RectangularRoom) : Bool :=
  decide (r.x1 ≤ other.x2 ∧ r.x2 ≥ other.x1 ∧ r.y1 ≤ other.y2 ∧ r.y2 ≥ other.y1)

/-- Membership in a pair of half-open slices (the cells a 2-D numpy slice
assignment touches). -/
def inSlices (sx sy : Int × Int) (p : Int × Int) : Prop :=
  sx.1 ≤ p.1 ∧ p.1 < sx.2 ∧ sy.1 ≤ p.2 ∧ p.2 < sy.2

instance (sx sy p : Int × Int) : Decidable (inSlices sx sy p) :=
  inferInstanceAs (Decidable (sx.1 ≤ p.1 ∧ p.1 < sx.2 ∧ sy.1 ≤ p.2 ∧ p.2 < sy.2))

/-- Cell `p` lies in the carved interior of room `r`. -/
def inInner (r : RectangularRoom) (p : Int × Int) : Prop :=
  inSlices r.inner.1 r.inner.2 p

instance (r : RectangularRoom) (p : Int × Int) : Decidable (inInner r p) :=
  inferInstanceAs (Decidable (inSlices r.inner.1 r.inner.2 p))

/-- Cell `p` lies in the carved interior of some room in `rooms`. -/
def inSomeInner (rooms : List RectangularRoom) (p : Int × Int) : Prop :=
  ∃ r ∈ rooms, inInner r p

instance (rooms : List RectangularRoom) (p : Int × Int) : Decidable (inSomeInner rooms p) :=
  inferInstanceAs (Decidable (∃ r ∈ rooms, inInner r p))

/-- The carve region `inner` of a room, as a finite set of cells. -/
def innerBox (r : RectangularRoom) : Finset (Int × Int) :=
  Finset.Ico (r.x1 + 1) r.x2 ×ˢ Finset.Ico (r.y1 + 1) r.y2

/-- The cells `place_entities` can draw a monster position from:
`randint(x1+1, x2-1) × randint(y1+1, y2-1)`, both ends inclusive. -/
def monsterBox (r : RectangularRoom) : Finset (Int × Int) :=
  Finset.Icc (r.x1 + 1) (r.x2 - 1) ×ˢ Finset.Icc (r.y1 + 1) (r.y2 - 1)

/-- The explicit pseudo-random stream replacing Python's process-wide
`random` state: an infinite sequence of raw naturals and a cursor. -/
structure RNG where
  seq : Nat → Nat
  pos : Nat

/-- Consume one raw draw. -/
def RNG.next (g : RNG) : Nat × RNG :=
  (g.seq g.pos, ⟨g.seq, g.pos + 1⟩)

/-- `random.randint(a, b)`: inclusive on both ends; raises `ValueError`
on an empty range. -/
def randint (a b : Int) (g : RNG) : Except String (Int × RNG) :=
  if b < a then .error "empty range for randrange()"
  else
    let n := g.next
    .ok (a + (n.1 : Int) % (b - a + 1), n.2)

/-- `random.random()`: a value in `[0, 1)`, embedded as a rational. -/
def randfloat (g : RNG) : Rat × RNG :=
  let n := g.next
  (((n.1 % 1000000 : Nat) : Rat) / 1000000, n.2)

/-- One iteration of the Bresenham loop over explicit error state.
Each step moves `x` by `sx` and/or `y` by `sy`, so consecutive emitted
cells differ by at most one in each axis. -/
def bresLoop (x2 y2 sx sy dx dy : Int) : Nat → Int → Int → Int → List (Int × Int)
  | 0, _, _, _ => []
  | fuel + 1, x, y, err =>
    if x = x2 ∧ y = y2 then [(x, y)]
    else
      let e2 := 2 * err
      let xn := if dy ≤ e2 then x + sx else x
      let err1 := if dy ≤ e2 then err + dy else err
      let yn := if e2 ≤ dx then y + sy else y
      let err2 := if e2 ≤ dx then err1 + dx else err1
      (x, y) :: bresLoop x2 y2 sx sy dx dy fuel xn yn err2

/-- `tcod.los.bresenham`: integer line rasterization from `p` to `q`,
inclusive of both endpoints. -/
def bresenham (p q : Int × Int) : List (Int × Int) :=
  let dx : Int := (q.1 - p.1).natAbs
  let dy : Int := -((q.2 - p.2).natAbs : Int)
  let sx : Int := if p.1 < q.1 then 1 else -1
  let sy : Int := if p.2 < q.2 then 1 else -1
  bresLoop q.1 q.2 sx sy dx dy ((q.1 - p.1).natAbs + (q.2 - p.2).natAbs + 1) p.1 p.2 (dx + dy)

/-- `tunnel_between`: an L-shaped corridor.  A coin flip picks the corner:
horizontal-then-vertical on `random() < 0.5`, else vertical-then-horizontal;
the two Bresenham segments are concatenated (the corner cell is emitted twice). -/
def tunnel_between (start stop : Int × Int) (g : RNG) : List (Int × Int) × RNG :=
  let r := randfloat g
  let corner : Int × Int :=
    if r.1 < (1 : Rat) / 2 then (stop.1, start.2) else (start.1, stop.2)
  (bresenham start corner ++ bresenham corner stop, r.2)

/-- Entity type tags (player from the engine; orc and troll from
`entity_factories`). -/
inductive EntityKind
  | player
  | orc
  | troll
deriving DecidableEq

/-- An entity: a type tag and a grid position. -/
structure Entity where
  kind : EntityKind
  x : Int
  y : Int
deriving DecidableEq

/-- The game map: dimensions, the tile grid, and the ordered entity
collection (the player is the element the map is constructed with). -/
structure GameMap where
  width : Int
  height : Int
  tiles : Int → Int → Tile
  entities : List Entity

/-- Modelled from the spec: `game_map.GameMap.__init__` is not in the given
sources; per the spec the grid is pre-filled with `wall` and the entity
collection starts with exactly the entities passed in. -/
def GameMap.new (width height : Int) (entities : List Entity) : GameMap :=
  ⟨width, height, fun _ _ => wall, entities⟩

/-- A single-cell tile write `dungeon.tiles[x, y] = t`. -/
def GameMap.setTile (m : GameMap) (x y : Int) (t : Tile) : GameMap :=
  { m with tiles := fun a b => if a = x ∧ b = y then t else m.tiles a b }

/-- The bulk 2-D slice write `dungeon.tiles[sx, sy] = t`. -/
def GameMap.fillSlices (m : GameMap) (sx sy : Int × Int) (t : Tile) : GameMap :=
  { m with tiles := fun a b => if inSlices sx sy (a, b) then t else m.tiles a b }

/-- Writing tile `t` at each cell of a list in order. -/
def GameMap.setCells (m : GameMap) (cells : List (Int × Int)) (t : Tile) : GameMap :=
  cells.foldl (fun acc c => acc.setTile c.1 c.2 t) m

/-- Modelled from the spec: `Entity.place` is not in the given sources; the
player (the entity the map was constructed with, kept at the head of the
collection) is assigned the given position. -/
def GameMap.placePlayer (m : GameMap) (x y : Int) : GameMap :=
  { m with entities :=
      match m.entities with
      | [] => []
      | p :: rest => { p with x := x, y := y } :: rest }

/-- Modelled from the spec: `entity_factories.*.spawn` is not in the given
sources; per the spec the factory constructs a monster at the given position
and inserts it into the map's entity collection (appended, preserving order). -/
def GameMap.spawn (m : GameMap) (k : EntityKind) (x y : Int) : GameMap :=
  { m with entities := m.entities ++ [Entity.mk k x y] }

/-- The monster-placement loop of `place_entities`: for each trial draw a
position; if unoccupied, spawn an orc with probability `0.8`, else a troll;
an occupied cell forfeits the trial. -/
def placeLoop (room : RectangularRoom) : Nat → GameMap → RNG → Except String (GameMap × RNG)
  | 0, dungeon, g => .ok (dungeon, g)
  | n + 1, dungeon, g =>
    match randint (room.x1 + 1) (room.x2 - 1) g with
    | .error e => .error e
    | .ok (x, g1) =>
      match randint (room.y1 + 1) (room.y2 - 1) g1 with
      | .error e => .error e
      | .ok (y, g2) =>
        if dungeon.entities.any fun entity => decide (entity.x = x ∧ entity.y = y) then
          placeLoop room n dungeon g2
        else
          let r := randfloat g2
          let dungeon1 :=
            if r.1 < (4 : Rat) / 5 then dungeon.spawn .orc x y else dungeon.spawn .troll x y
          placeLoop room n dungeon1 r.2

/-- `place_entities`: draw `number_of_monsters` from `[0, maximum_monsters]`,
then run that many placement trials. -/
def place_entities (room : RectangularRoom) (dungeon : GameMap) (maximum_monsters : Int)
    (g : RNG) : Except String (GameMap × RNG) :=
  match randint 0 maximum_monsters g with
  | .error e => .error e
  | .ok (number_of_monsters, g1) => placeLoop room number_of_monsters.toNat dungeon g1

/-- The generation loop of `generate_dungeon`: one case per remaining attempt.
The third component of the state is ghost data recording every corridor cell
ever carved; it is only appended to and never read, so it does not influence
the computation. -/
def genLoop (room_min_size room_max_size max_monsters_per_room : Int) :
    Nat → GameMap → List RectangularRoom → List (Int × Int) → RNG →
    Except String (GameMap × List RectangularRoom × List (Int × Int) × RNG)
  | 0, dungeon, rooms, corridors, g => .ok (dungeon, rooms, corridors, g)
  | n + 1, dungeon, rooms, corridors, g =>
    match randint room_min_size room_max_size g with
    | .error e => .error e
    | .ok (room_width, g1) =>
      match randint room_min_size room_max_size g1 with
      | .error e => .error e
      | .ok (room_height, g2) =>
        match randint 0 (dungeon.width - room_width - 1) g2 with
        | .error e => .error e
        | .ok (x, g3) =>
          match randint 0 (dungeon.height - room_height - 1) g3 with
          | .error e => .error e
          | .ok (y, g4) =>
            let new_room := RectangularRoom.make x y room_width room_height
            if rooms.any fun other_room => new_room.intersects other_room then
              genLoop room_min_size room_max_size max_monsters_per_room n
                dungeon rooms corridors g4
            else
              let dungeon1 := dungeon.fillSlices new_room.inner.1 new_room.inner.2 floor
              let step :=
                match rooms with
                | [] =>
                  (dungeon1.placePlayer new_room.center.1 new_room.center.2, corridors, g4)
                | r :: rs =>
                  let pg :=
                    tunnel_between ((r :: rs).getLast (List.cons_ne_nil r rs)).center
                      new_room.center g4
                  (dungeon1.setCells pg.1 floor, corridors ++ pg.1, pg.2)
              match place_entities new_room step.1 max_monsters_per_room step.2.2 with
              | .error e => .error e
              | .ok (dungeon2, g5) =>
                genLoop room_min_size room_max_size max_monsters_per_room n
                  dungeon2 (rooms ++ [new_room]) step.2.1 g5

/-- `generate_dungeon`, instrumented: returns the final map together with the
accepted room list and the ghost corridor-cell list. -/
def runDungeon (max_rooms : Nat)
    (room_min_size room_max_size map_width map_height max_monsters_per_room : Int)
    (player : Entity) (g : RNG) :
    Except String (GameMap × List RectangularRoom × List (Int × Int) × RNG) :=
  genLoop room_min_size room_max_size max_monsters_per_room max_rooms
    (GameMap.new map_width map_height [player]) [] [] g

/-- `generate_dungeon`: the map produced by the generation loop. -/
def generate_dungeon (max_rooms : Nat)
    (room_min_size room_max_size map_width map_height max_monsters_per_room : Int)
    (player : Entity) (g : RNG) : Except String GameMap :=
  (runDungeon max_rooms room_min_size room_max_size map_width map_height
      max_monsters_per_room player g).map fun t => t.1

/-- The accepted room list of a generation run (`none` on a raised error). -/
def runRooms (max_rooms : Nat) (rmin rmax w h mm : Int) (player : Entity) (g : RNG) :
    Option (List RectangularRoom) :=
  (runDungeon max_rooms rmin rmax w h mm player g).toOption.map fun t => t.2.1

/-- The corridor cells carved by a generation run (`none` on a raised error). -/
def runCorridors (max_rooms : Nat) (rmin rmax w h mm : Int) (player : Entity) (g : RNG) :
    Option (List (Int × Int)) :=
  (runDungeon max_rooms rmin rmax w h mm player g).toOption.map fun t => t.2.2.1

/-- The tile a generation run leaves at cell `p` (`none` on a raised error). -/
def runTiles (max_rooms : Nat) (rmin rmax w h mm : Int) (player : Entity) (g : RNG)
    (p : Int × Int) : Option Tile :=
  (runDungeon max_rooms rmin rmax w h mm player g).toOption.map fun t => t.1.tiles p.1 p.2

/-- The position of the head entity (the player) after a generation run. -/
def runPlayerPos (max_rooms : Nat) (rmin rmax w h mm : Int) (player : Entity) (g : RNG) :
    Option (Int × Int) :=
  (runDungeon max_rooms rmin rmax w h mm player g).toOption.bind fun t =>
    t.1.entities.head?.map fun e => (e.x, e.y)

/-- The entity collection left by `place_entities` (`none` on a raised error). -/
def placedEntities (room : RectangularRoom) (dungeon : GameMap) (mm : Int) (g : RNG) :
    Option (List Entity) :=
  (place_entities room dungeon mm g).toOption.map fun t => t.1.entities

/-- A room fitting in a `w × h` grid with one tile of margin at the far edge,
with both extents at least `minSize`. -/
def roomOK (minSize w h : Int) (r : RectangularRoom) : Prop :=
  0 ≤ r.x1 ∧ r.x1 + minSize ≤ r.x2 ∧ r.x2 ≤ w - 1 ∧
  0 ≤ r.y1 ∧ r.y1 + minSize ≤ r.y2 ∧ r.y2 ≤ h - 1

/-- A cell inside the `w × h` grid. -/
def cellInBounds (w h : Int) (p : Int × Int) : Prop :=
  0 ≤ p.1 ∧ p.1 ≤ w - 1 ∧ 0 ≤ p.2 ∧ p.2 ≤ h - 1

instance (w h : Int) (p : Int × Int) : Decidable (cellInBounds w h p) :=
  inferInstanceAs (Decidable (0 ≤ p.1 ∧ p.1 ≤ w - 1 ∧ 0 ≤ p.2 ∧ p.2 ≤ h - 1))

/-- The loop invariant of `genLoop`: dimensions are fixed; accepted rooms are
pairwise non-intersecting; the tile grid is floor exactly on accepted inner
regions and carved corridor cells and wall elsewhere; when `1 ≤ minSize` all
rooms and corridor cells are in bounds; the player heads the entity
collection, unmoved while no room is accepted, at the first accepted room's
center afterwards. -/
def Inv (minSize w h : Int) (player : Entity) (d : GameMap)
    (rooms : List RectangularRoom) (corridors : List (Int × Int)) : Prop :=
  d.width = w ∧ d.height = h ∧
  List.Pairwise (fun a b => a.intersects b = false) rooms ∧
  (∀ p : Int × Int,
    d.tiles p.1 p.2 = if inSomeInner rooms p ∨ p ∈ corridors then floor else wall) ∧
  (1 ≤ minSize →
    (∀ r ∈ rooms, roomOK minSize w h r) ∧ ∀ c ∈ corridors, cellInBounds w h c) ∧
  (match rooms with
   | [] => corridors = [] ∧ d.entities = [player]
   | r0 :: _ =>
     d.entities.head? = some { player with x := r0.center.1, y := r0.center.2 })

/-- King adjacency: the two cells differ by at most one unit in each axis. -/
def kingAdj (p q : Int × Int) : Prop :=
  (q.1 - p.1).natAbs ≤ 1 ∧ (q.2 - p.2).natAbs ≤ 1

end ZenKai

namespace ZenKai

theorem floor_ne_wall : floor ≠ wall := by decide

theorem intersects_false_symm {a b : RectangularRoom}
    (h : a.intersects b = false) : b.intersects a = false := by
  simp only [RectangularRoom.intersects, decide_eq_false_iff_not] at h ⊢
  intro hb
  exact h (by omega)

theorem randint_ok {a b v : Int} {g gx : RNG}
    (h : randint a b g = .ok (v, gx)) : a ≤ v ∧ v ≤ b := by
  unfold randint at h
  split at h
  · simp at h
  · rename_i hba
    simp only [Except.ok.injEq, Prod.mk.injEq] at h
    obtain ⟨hv, -⟩ := h
    have h0 : (0 : Int) < b - a + 1 := by omega
    have hm1 : 0 ≤ ((g.next.1 : Int)) % (b - a + 1) := Int.emod_nonneg _ (by omega)
    have hm2 : ((g.next.1 : Int)) % (b - a + 1) < b - a + 1 := Int.emod_lt_of_pos _ h0
    omega

theorem randint_error {a b : Int} {g : RNG} (h : b < a) :
    randint a b g = .error "empty range for randrange()" := by
  unfold randint
  rw [if_pos h]

theorem tdiv_two_eq_ediv {a : Int} (h : 0 ≤ a) : Int.tdiv a 2 = a / 2 :=
  Int.tdiv_eq_ediv h (by omega)

theorem center_mem_inner {r : RectangularRoom} (hx1 : 0 ≤ r.x1) (hy1 : 0 ≤ r.y1)
    (hx : r.x1 + 2 ≤ r.x2) (hy : r.y1 + 2 ≤ r.y2) : inInner r r.center := by
  unfold inInner inSlices RectangularRoom.center RectangularRoom.inner
  rw [tdiv_two_eq_ediv (by omega), tdiv_two_eq_ediv (by omega)]
  simp only
  omega

theorem center_in_bounds {r : RectangularRoom} {w h : Int}
    (hx1 : 0 ≤ r.x1) (hx12 : r.x1 ≤ r.x2) (hx2 : r.x2 ≤ w - 1)
    (hy1 : 0 ≤ r.y1) (hy12 : r.y1 ≤ r.y2) (hy2 : r.y2 ≤ h - 1) :
    cellInBounds w h r.center := by
  unfold cellInBounds RectangularRoom.center
  rw [tdiv_two_eq_ediv (by omega), tdiv_two_eq_ediv (by omega)]
  simp only
  omega

theorem bresLoop_horiz (y sy dx sx : Int) (hdx : 0 < dx) (hsx : sx = 1 ∨ sx = -1) :
    ∀ (k fuel : Nat) (x x2 : Int), k < fuel → x2 = x + sx * k →
      bresLoop x2 y sx sy dx 0 fuel x y dx =
        (List.range (k + 1)).map fun i : Nat => (x + sx * i, y) := by
  intro k
  induction k with
  | zero =>
    intro fuel x x2 hf hx2
    obtain ⟨fuel, rfl⟩ : ∃ m, fuel = m + 1 := ⟨fuel - 1, by omega⟩
    subst hx2
    rw [show List.range 1 = [0] from rfl]
    simp [bresLoop]
  | succ k ih =>
    intro fuel x x2 hf hx2
    obtain ⟨fuel, rfl⟩ : ∃ m, fuel = m + 1 := ⟨fuel - 1, by omega⟩
    have hne : ¬(x = x2 ∧ y = y) := by
      subst hx2
      rcases hsx with rfl | rfl <;> push_cast <;> omega
    have c1 : (0 : Int) ≤ 2 * dx := by omega
    have c2 : ¬(2 * dx ≤ dx) := by omega
    rw [bresLoop, if_neg hne]
    simp only [if_pos c1, if_neg c2, add_zero]
    have hx2n : x2 = (x + sx) + sx * (k : Int) := by
      subst hx2; push_cast; ring
    rw [ih fuel (x + sx) x2 (by omega) hx2n]
    conv_rhs => rw [List.range_succ_eq_map]
    simp only [List.map_cons, List.map_map]
    congr 1
    · simp
    · apply List.map_congr_left
      intro i _
      simp only [Function.comp_apply, Prod.mk.injEq]
      refine ⟨by push_cast; ring, trivial⟩

theorem bresLoop_vert (x sx dy sy : Int) (hdy : dy < 0) (hsy : sy = 1 ∨ sy = -1) :
    ∀ (k fuel : Nat) (y y2 : Int), k < fuel → y2 = y + sy * k →
      bresLoop x y2 sx sy 0 dy fuel x y dy =
        (List.range (k + 1)).map fun i : Nat => (x, y + sy * i) := by
  intro k
  induction k with
  | zero =>
    intro fuel y y2 hf hy2
    obtain ⟨fuel, rfl⟩ : ∃ m, fuel = m + 1 := ⟨fuel - 1, by omega⟩
    subst hy2
    rw [show List.range 1 = [0] from rfl]
    simp [bresLoop]
  | succ k ih =>
    intro fuel y y2 hf hy2
    obtain ⟨fuel, rfl⟩ : ∃ m, fuel = m + 1 := ⟨fuel - 1, by omega⟩
    have hne : ¬(x = x ∧ y = y2) := by
      subst hy2
      rcases hsy with rfl | rfl <;> push_cast <;> omega
    have c1 : ¬(dy ≤ 2 * dy) := by omega
    have c2 : 2 * dy ≤ (0 : Int) := by omega
    rw [bresLoop, if_neg hne]
    simp only [if_pos c2, if_neg c1, add_zero]
    have hy2n : y2 = (y + sy) + sy * (k : Int) := by
      subst hy2; push_cast; ring
    rw [ih fuel (y + sy) y2 (by omega) hy2n]
    conv_rhs => rw [List.range_succ_eq_map]
    simp only [List.map_cons, List.map_map]
    congr 1
    · simp
    · apply List.map_congr_left
      intro i _
      simp only [Function.comp_apply, Prod.mk.injEq]
      refine ⟨trivial, by push_cast; ring⟩

theorem walk_ne_nil {α : Type} (f : Nat → α) (k : Nat) :
    (List.range (k + 1)).map f ≠ [] := by
  simp [List.range_succ]

theorem walk_head {α : Type} (f : Nat → α) (k : Nat) :
    ((List.range (k + 1)).map f).head? = some (f 0) := by
  rw [List.range_succ_eq_map]
  simp

theorem walk_last {α : Type} (f : Nat → α) (k : Nat) :
    ((List.range (k + 1)).map f).getLast? = some (f k) := by
  rw [List.range_succ, List.map_append]
  simp

theorem walk_chain {α : Type} (R : α → α → Prop) (f : Nat → α) (k : Nat)
    (h : ∀ m, m < k → R (f m) (f (m + 1))) :
    List.Chain' R ((List.range (k + 1)).map f) := by
  rw [List.chain'_map]
  exact (List.chain'_range_succ _ k).2 h

theorem walk_mem {α : Type} {f : Nat → α} {k : Nat} {p : α}
    (h : p ∈ (List.range (k + 1)).map f) : ∃ i, i ≤ k ∧ p = f i := by
  obtain ⟨i, hi, rfl⟩ := List.mem_map.1 h
  exact ⟨i, by simpa using Nat.lt_succ_iff.1 (List.mem_range.1 hi), rfl⟩

theorem bresenham_horiz (a b y : Int) :
    bresenham (a, y) (b, y) =
      (List.range ((b - a).natAbs + 1)).map fun i : Nat =>
        (a + (if a < b then 1 else -1) * i, y) := by
  unfold bresenham
  simp only [sub_self, Int.natAbs_zero, Nat.cast_zero, neg_zero, add_zero]
  rcases lt_trichotomy a b with h | rfl | h
  · rw [if_pos h]
    have hdx : (0 : Int) < ((b - a).natAbs : Int) := by omega
    exact bresLoop_horiz y (if y < y then 1 else -1) _ 1 hdx (Or.inl rfl)
      ((b - a).natAbs) ((b - a).natAbs + 1) a b (Nat.lt_succ_self _) (by omega)
  · simp only [sub_self, Int.natAbs_zero, zero_add]
    rw [show List.range (0 + 1) = [0] from rfl]
    simp [bresLoop]
  · rw [if_neg (by omega)]
    have hdx : (0 : Int) < ((b - a).natAbs : Int) := by omega
    exact bresLoop_horiz y (if y < y then 1 else -1) _ (-1) hdx (Or.inr rfl)
      ((b - a).natAbs) ((b - a).natAbs + 1) a b (Nat.lt_succ_self _) (by omega)

theorem bresenham_vert (x c d : Int) :
    bresenham (x, c) (x, d) =
      (List.range ((d - c).natAbs + 1)).map fun i : Nat =>
        (x, c + (if c < d then 1 else -1) * i) := by
  unfold bresenham
  simp only [sub_self, Int.natAbs_zero, Nat.cast_zero, neg_zero, zero_add]
  rcases lt_trichotomy c d with h | rfl | h
  · rw [if_pos h]
    have hdy : -(((d - c).natAbs : Nat) : Int) < 0 := by omega
    exact bresLoop_vert x (if x < x then 1 else -1) _ 1 hdy (Or.inl rfl)
      ((d - c).natAbs) ((d - c).natAbs + 1) c d (Nat.lt_succ_self _) (by omega)
  · simp only [sub_self, Int.natAbs_zero, zero_add]
    rw [show List.range (0 + 1) = [0] from rfl]
    simp [bresLoop]
  · rw [if_neg (lt_irrefl x), if_neg (show ¬c < d by omega)]
    have hdy : -(((d - c).natAbs : Nat) : Int) < 0 := by omega
    exact bresLoop_vert x (-1) _ (-1) hdy (Or.inr rfl)
      ((d - c).natAbs) ((d - c).natAbs + 1) c d (Nat.lt_succ_self _) (by omega)

theorem bresenham_horiz_spec (a b y : Int) :
    bresenham (a, y) (b, y) ≠ [] ∧
    (bresenham (a, y) (b, y)).head? = some (a, y) ∧
    (bresenham (a, y) (b, y)).getLast? = some (b, y) ∧
    List.Chain' kingAdj (bresenham (a, y) (b, y)) ∧
    ∀ p ∈ bresenham (a, y) (b, y), p.2 = y ∧ min a b ≤ p.1 ∧ p.1 ≤ max a b := by
  rw [bresenham_horiz]
  refine ⟨walk_ne_nil _ _, ?_, ?_, ?_, ?_⟩
  · rw [walk_head]
    simp
  · rw [walk_last]
    congr 1
    simp only [Prod.mk.injEq]
    exact ⟨by split <;> omega, trivial⟩
  · apply walk_chain
    intro m hm
    simp only [kingAdj]
    constructor
    · split <;> omega
    · omega
  · intro p hp
    obtain ⟨i, hik, rfl⟩ := walk_mem hp
    dsimp only
    refine ⟨rfl, ?_, ?_⟩ <;> split <;> omega

theorem bresenham_vert_spec (x c d : Int) :
    bresenham (x, c) (x, d) ≠ [] ∧
    (bresenham (x, c) (x, d)).head? = some (x, c) ∧
    (bresenham (x, c) (x, d)).getLast? = some (x, d) ∧
    List.Chain' kingAdj (bresenham (x, c) (x, d)) ∧
    ∀ p ∈ bresenham (x, c) (x, d), p.1 = x ∧ min c d ≤ p.2 ∧ p.2 ≤ max c d := by
  rw [bresenham_vert]
  refine ⟨walk_ne_nil _ _, ?_, ?_, ?_, ?_⟩
  · rw [walk_head]
    simp
  · rw [walk_last]
    congr 1
    simp only [Prod.mk.injEq]
    exact ⟨trivial, by split <;> omega⟩
  · apply walk_chain
    intro m hm
    simp only [kingAdj]
    constructor
    · omega
    · split <;> omega
  · intro p hp
    obtain ⟨i, hik, rfl⟩ := walk_mem hp
    dsimp only
    refine ⟨rfl, ?_, ?_⟩ <;> split <;> omega

theorem tunnel_between_spec (s t : Int × Int) (g : RNG) :
    (tunnel_between s t g).1 ≠ [] ∧
    (tunnel_between s t g).1.head? = some s ∧
    (tunnel_between s t g).1.getLast? = some t ∧
    List.Chain' kingAdj (tunnel_between s t g).1 ∧
    ∀ p ∈ (tunnel_between s t g).1,
      min s.1 t.1 ≤ p.1 ∧ p.1 ≤ max s.1 t.1 ∧ min s.2 t.2 ≤ p.2 ∧ p.2 ≤ max s.2 t.2 := by
  obtain ⟨a, b⟩ := s
  obtain ⟨c, d⟩ := t
  unfold tunnel_between
  dsimp only
  split
  · obtain ⟨hn1, hh1, hl1, hc1, hb1⟩ := bresenham_horiz_spec a c b
    obtain ⟨hn2, hh2, hl2, hc2, hb2⟩ := bresenham_vert_spec c b d
    refine ⟨by simp [hn1], ?_, ?_, ?_, ?_⟩
    · rw [List.head?_append, hh1, Option.or_some]
    · rw [List.getLast?_append, hl2]
      simp
    · refine List.Chain'.append hc1 hc2 ?_
      intro p hp q hq
      rw [hl1] at hp
      rw [hh2] at hq
      simp only [Option.mem_def, Option.some.injEq] at hp hq
      subst hp
      subst hq
      exact ⟨by simp, by simp⟩
    · intro p hp
      rcases List.mem_append.1 hp with hm | hm
      · obtain ⟨hpy, hp1, hp2⟩ := hb1 p hm
        refine ⟨by omega, by omega, by omega, by omega⟩
      · obtain ⟨hpx, hp1, hp2⟩ := hb2 p hm
        refine ⟨by omega, by omega, by omega, by omega⟩
  · obtain ⟨hn1, hh1, hl1, hc1, hb1⟩ := bresenham_vert_spec a b d
    obtain ⟨hn2, hh2, hl2, hc2, hb2⟩ := bresenham_horiz_spec a c d
    refine ⟨by simp [hn1], ?_, ?_, ?_, ?_⟩
    · rw [List.head?_append, hh1, Option.or_some]
    · rw [List.getLast?_append, hl2]
      simp
    · refine List.Chain'.append hc1 hc2 ?_
      intro p hp q hq
      rw [hl1] at hp
      rw [hh2] at hq
      simp only [Option.mem_def, Option.some.injEq] at hp hq
      subst hp
      subst hq
      exact ⟨by simp, by simp⟩
    · intro p hp
      rcases List.mem_append.1 hp with hm | hm
      · obtain ⟨hpx, hp1, hp2⟩ := hb1 p hm
        refine ⟨by omega, by omega, by omega, by omega⟩
      · obtain ⟨hpy, hp1, hp2⟩ := hb2 p hm
        refine ⟨by omega, by omega, by omega, by omega⟩

@[simp] theorem new_width (w h : Int) (es : List Entity) : (GameMap.new w h es).width = w := rfl

@[simp] theorem new_height (w h : Int) (es : List Entity) : (GameMap.new w h es).height = h := rfl

@[simp] theorem new_entities (w h : Int) (es : List Entity) :
    (GameMap.new w h es).entities = es := rfl

theorem new_tiles (w h : Int) (es : List Entity) (a b : Int) :
    (GameMap.new w h es).tiles a b = wall := rfl

@[simp] theorem setTile_width (m : GameMap) (x y : Int) (t : Tile) :
    (m.setTile x y t).width = m.width := rfl

@[simp] theorem setTile_height (m : GameMap) (x y : Int) (t : Tile) :
    (m.setTile x y t).height = m.height := rfl

@[simp] theorem setTile_entities (m : GameMap) (x y : Int) (t : Tile) :
    (m.setTile x y t).entities = m.entities := rfl

theorem setTile_tiles (m : GameMap) (x y : Int) (t : Tile) (a b : Int) :
    (m.setTile x y t).tiles a b = if a = x ∧ b = y then t else m.tiles a b := rfl

@[simp] theorem fillSlices_width (m : GameMap) (sx sy : Int × Int) (t : Tile) :
    (m.fillSlices sx sy t).width = m.width := rfl

@[simp] theorem fillSlices_height (m : GameMap) (sx sy : Int × Int) (t : Tile) :
    (m.fillSlices sx sy t).height = m.height := rfl

@[simp] theorem fillSlices_entities (m : GameMap) (sx sy : Int × Int) (t : Tile) :
    (m.fillSlices sx sy t).entities = m.entities := rfl

theorem fillSlices_tiles (m : GameMap) (sx sy : Int × Int) (t : Tile) (a b : Int) :
    (m.fillSlices sx sy t).tiles a b = if inSlices sx sy (a, b) then t else m.tiles a b := rfl

theorem setCells_cons (m : GameMap) (c : Int × Int) (cs : List (Int × Int)) (t : Tile) :
    m.setCells (c :: cs) t = (m.setTile c.1 c.2 t).setCells cs t := rfl

@[simp] theorem setCells_width (cells : List (Int × Int)) (m : GameMap) (t : Tile) :
    (m.setCells cells t).width = m.width := by
  induction cells generalizing m with
  | nil => rfl
  | cons c cs ih => rw [setCells_cons, ih, setTile_width]

@[simp] theorem setCells_height (cells : List (Int × Int)) (m : GameMap) (t : Tile) :
    (m.setCells cells t).height = m.height := by
  induction cells generalizing m with
  | nil => rfl
  | cons c cs ih => rw [setCells_cons, ih, setTile_height]

@[simp] theorem setCells_entities (cells : List (Int × Int)) (m : GameMap) (t : Tile) :
    (m.setCells cells t).entities = m.entities := by
  induction cells generalizing m with
  | nil => rfl
  | cons c cs ih => rw [setCells_cons, ih, setTile_entities]

theorem setCells_tiles (cells : List (Int × Int)) (m : GameMap) (t : Tile) (a b : Int) :
    (m.setCells cells t).tiles a b = if (a, b) ∈ cells then t else m.tiles a b := by
  induction cells generalizing m with
  | nil => simp [GameMap.setCells]
  | cons c cs ih =>
    rw [setCells_cons, ih]
    by_cases h1 : (a, b) ∈ cs
    · simp [h1]
    · rw [if_neg h1, setTile_tiles]
      by_cases h2 : (a, b) = c
      · rw [if_pos (by rw [Prod.ext_iff] at h2; exact ⟨h2.1, h2.2⟩), if_pos (by simp [h2])]
      · rw [if_neg (by rw [Prod.ext_iff] at h2; tauto),
          if_neg (by simp [List.mem_cons, h2, h1])]

@[simp] theorem placePlayer_width (m : GameMap) (x y : Int) :
    (m.placePlayer x y).width = m.width := rfl

@[simp] theorem placePlayer_height (m : GameMap) (x y : Int) :
    (m.placePlayer x y).height = m.height := rfl

theorem placePlayer_tiles (m : GameMap) (x y : Int) :
    (m.placePlayer x y).tiles = m.tiles := rfl

@[simp] theorem spawn_width (m : GameMap) (k : EntityKind) (x y : Int) :
    (m.spawn k x y).width = m.width := rfl

@[simp] theorem spawn_height (m : GameMap) (k : EntityKind) (x y : Int) :
    (m.spawn k x y).height = m.height := rfl

theorem spawn_tiles (m : GameMap) (k : EntityKind) (x y : Int) :
    (m.spawn k x y).tiles = m.tiles := rfl

@[simp] theorem spawn_entities (m : GameMap) (k : EntityKind) (x y : Int) :
    (m.spawn k x y).entities = m.entities ++ [Entity.mk k x y] := rfl

theorem head?_append_left {α : Type} {l l' : List α} (h : l ≠ []) :
    (l ++ l').head? = l.head? := by
  cases l with
  | nil => exact absurd rfl h
  | cons a t => simp

theorem placeLoop_spec (room : RectangularRoom) :
    ∀ (n : Nat) (d : GameMap) (g : RNG) (res : GameMap × RNG),
      placeLoop room n d g = .ok res →
      res.1.width = d.width ∧ res.1.height = d.height ∧ res.1.tiles = d.tiles ∧
      (∀ e ∈ res.1.entities, e ∈ d.entities ∨ (e.x, e.y) ∈ monsterBox room) ∧
      (d.entities ≠ [] → res.1.entities.head? = d.entities.head? ∧ res.1.entities ≠ []) := by
  intro n
  induction n with
  | zero =>
    intro d g res h
    simp only [placeLoop, Except.ok.injEq] at h
    subst h
    exact ⟨rfl, rfl, rfl, fun e he => Or.inl he, fun hne => ⟨rfl, hne⟩⟩
  | succ n ih =>
    intro d g res h
    simp only [placeLoop] at h
    split at h
    · exact absurd h (by simp)
    · rename_i px pgx heqx
      split at h
      · exact absurd h (by simp)
      · rename_i py pgy heqy
        split at h
        · exact ih _ _ _ h
        · have hsp : ∃ k, (if (randfloat pgy).1 < (4 : Rat) / 5
              then d.spawn .orc px py else d.spawn .troll px py) =
                d.spawn k px py := by
            split
            · exact ⟨.orc, rfl⟩
            · exact ⟨.troll, rfl⟩
          obtain ⟨k, hk⟩ := hsp
          rw [hk] at h
          obtain ⟨h1, h2, h3, h4, h5⟩ := ih _ _ _ h
          obtain ⟨hx1, hx2⟩ := randint_ok (by rw [heqx])
          obtain ⟨hy1, hy2⟩ := randint_ok (by rw [heqy])
          refine ⟨by rw [h1, spawn_width], by rw [h2, spawn_height],
            by rw [h3, spawn_tiles], ?_, ?_⟩
          · intro e he
            rcases h4 e he with hin | hbox
            · rw [spawn_entities] at hin
              rcases List.mem_append.1 hin with hin | hin
              · exact Or.inl hin
              · refine Or.inr ?_
                have he : e = Entity.mk k px py := by simpa using hin
                subst he
                exact Finset.mem_product.2
                  ⟨Finset.mem_Icc.2 ⟨hx1, hx2⟩, Finset.mem_Icc.2 ⟨hy1, hy2⟩⟩
            · exact Or.inr hbox
          · intro hne
            have hne2 : (d.spawn k px py).entities ≠ [] := by
              rw [spawn_entities]
              simp
            obtain ⟨hh, hn⟩ := h5 hne2
            refine ⟨?_, hn⟩
            rw [hh, spawn_entities, head?_append_left hne]

theorem place_entities_spec {room : RectangularRoom} {d : GameMap} {mm : Int} {g : RNG}
    {res : GameMap × RNG} (h : place_entities room d mm g = .ok res) :
    res.1.width = d.width ∧ res.1.height = d.height ∧ res.1.tiles = d.tiles ∧
    (∀ e ∈ res.1.entities, e ∈ d.entities ∨ (e.x, e.y) ∈ monsterBox room) ∧
    (d.entities ≠ [] → res.1.entities.head? = d.entities.head? ∧ res.1.entities ≠ []) := by
  unfold place_entities at h
  split at h
  · exact absurd h (by simp)
  · exact placeLoop_spec room _ _ _ _ h

theorem inSomeInner_append {l1 l2 : List RectangularRoom} {p : Int × Int} :
    inSomeInner (l1 ++ l2) p ↔ inSomeInner l1 p ∨ inSomeInner l2 p := by
  unfold inSomeInner
  constructor
  · rintro ⟨r, hr, hin⟩
    rcases List.mem_append.1 hr with hm | hm
    · exact Or.inl ⟨r, hm, hin⟩
    · exact Or.inr ⟨r, hm, hin⟩
  · rintro (⟨r, hr, hin⟩ | ⟨r, hr, hin⟩)
    · exact ⟨r, List.mem_append.2 (Or.inl hr), hin⟩
    · exact ⟨r, List.mem_append.2 (Or.inr hr), hin⟩

theorem inSomeInner_singleton {r : RectangularRoom} {p : Int × Int} :
    inSomeInner [r] p ↔ inInner r p := by
  unfold inSomeInner
  simp

theorem inv_accept_first {rmin rmax mm w h : Int} {p0 : Entity} {d : GameMap}
    {corr : List (Int × Int)} {g g1 g2 g3 g4 g5 : RNG} {rw1 rh1 x y : Int} {d2 : GameMap}
    (hInv : Inv rmin w h p0 d [] corr)
    (hrw : randint rmin rmax g = .ok (rw1, g1))
    (hrh : randint rmin rmax g1 = .ok (rh1, g2))
    (hx : randint 0 (d.width - rw1 - 1) g2 = .ok (x, g3))
    (hy : randint 0 (d.height - rh1 - 1) g3 = .ok (y, g4))
    (hpe : place_entities (RectangularRoom.make x y rw1 rh1)
        ((d.fillSlices (RectangularRoom.make x y rw1 rh1).inner.1
            (RectangularRoom.make x y rw1 rh1).inner.2 floor).placePlayer
          (RectangularRoom.make x y rw1 rh1).center.1
          (RectangularRoom.make x y rw1 rh1).center.2) mm g4 = .ok (d2, g5)) :
    Inv rmin w h p0 d2 [RectangularRoom.make x y rw1 rh1] corr := by
  obtain ⟨hw, hh, hpair, htiles, hbnd, hmatch⟩ := hInv
  obtain ⟨hcorr, hent⟩ := hmatch
  obtain ⟨pw, ph, pt, pprov, phead⟩ := place_entities_spec hpe
  obtain ⟨hrw1, hrw2⟩ := randint_ok hrw
  obtain ⟨hrh1, hrh2⟩ := randint_ok hrh
  obtain ⟨hx1, hx2⟩ := randint_ok hx
  obtain ⟨hy1, hy2⟩ := randint_ok hy
  rw [hw] at hx2
  rw [hh] at hy2
  refine ⟨by rw [pw]; simp [hw], by rw [ph]; simp [hh], List.pairwise_singleton _ _,
    ?_, ?_, ?_⟩
  · intro p
    have hwall : d.tiles p.1 p.2 = wall := by
      rw [htiles p, if_neg]
      rintro (hr | hc)
      · obtain ⟨r, hr, -⟩ := hr
        simp at hr
      · rw [hcorr] at hc
        simp at hc
    rw [pt, placePlayer_tiles, fillSlices_tiles]
    show (if inInner (RectangularRoom.make x y rw1 rh1) p then floor else d.tiles p.1 p.2) = _
    by_cases hin : inInner (RectangularRoom.make x y rw1 rh1) p
    · rw [if_pos hin, if_pos (Or.inl (inSomeInner_singleton.2 hin))]
    · rw [if_neg hin, hwall, if_neg]
      rintro (hr | hc)
      · exact hin (inSomeInner_singleton.1 hr)
      · rw [hcorr] at hc
        simp at hc
  · intro h1
    refine ⟨?_, ?_⟩
    · intro r hr
      have hreq : r = RectangularRoom.make x y rw1 rh1 := by simpa using hr
      subst hreq
      unfold roomOK RectangularRoom.make
      dsimp only
      refine ⟨by omega, by omega, by omega, by omega, by omega, by omega⟩
    · intro c hc
      rw [hcorr] at hc
      simp at hc
  · have hne : ((d.fillSlices (RectangularRoom.make x y rw1 rh1).inner.1
        (RectangularRoom.make x y rw1 rh1).inner.2 floor).placePlayer
          (RectangularRoom.make x y rw1 rh1).center.1
          (RectangularRoom.make x y rw1 rh1).center.2).entities ≠ [] := by
      simp [GameMap.placePlayer, hent]
    obtain ⟨hh2, -⟩ := phead hne
    rw [hh2]
    simp [GameMap.placePlayer, hent]

theorem inv_accept_later {rmin rmax mm w h : Int} {p0 : Entity} {d : GameMap}
    {r0 : RectangularRoom} {rs : List RectangularRoom}
    {corr : List (Int × Int)} {g g1 g2 g3 g4 g5 : RNG} {rw1 rh1 x y : Int} {d2 : GameMap}
    (hInv : Inv rmin w h p0 d (r0 :: rs) corr)
    (hrw : randint rmin rmax g = .ok (rw1, g1))
    (hrh : randint rmin rmax g1 = .ok (rh1, g2))
    (hx : randint 0 (d.width - rw1 - 1) g2 = .ok (x, g3))
    (hy : randint 0 (d.height - rh1 - 1) g3 = .ok (y, g4))
    (hrej : (r0 :: rs).any
      (fun other_room => (RectangularRoom.make x y rw1 rh1).intersects other_room) = false)
    (hpe : place_entities (RectangularRoom.make x y rw1 rh1)
        ((d.fillSlices (RectangularRoom.make x y rw1 rh1).inner.1
            (RectangularRoom.make x y rw1 rh1).inner.2 floor).setCells
          (tunnel_between ((r0 :: rs).getLast (List.cons_ne_nil r0 rs)).center
            (RectangularRoom.make x y rw1 rh1).center g4).1 floor) mm
          (tunnel_between ((r0 :: rs).getLast (List.cons_ne_nil r0 rs)).center
            (RectangularRoom.make x y rw1 rh1).center g4).2 = .ok (d2, g5)) :
    Inv rmin w h p0 d2 ((r0 :: rs) ++ [RectangularRoom.make x y rw1 rh1])
      (corr ++ (tunnel_between ((r0 :: rs).getLast (List.cons_ne_nil r0 rs)).center
        (RectangularRoom.make x y rw1 rh1).center g4).1) := by
  obtain ⟨hw, hh, hpair, htiles, hbnd, hmatch⟩ := hInv
  obtain ⟨pw, ph, pt, pprov, phead⟩ := place_entities_spec hpe
  obtain ⟨hrw1, hrw2⟩ := randint_ok hrw
  obtain ⟨hrh1, hrh2⟩ := randint_ok hrh
  obtain ⟨hx1, hx2⟩ := randint_ok hx
  obtain ⟨hy1, hy2⟩ := randint_ok hy
  rw [hw] at hx2
  rw [hh] at hy2
  set nr := RectangularRoom.make x y rw1 rh1 with hnr
  set rlast := (r0 :: rs).getLast (List.cons_ne_nil r0 rs) with hrl
  set path := (tunnel_between rlast.center nr.center g4).1 with hpathdef
  obtain ⟨tn, th, tl, tc, tb⟩ := tunnel_between_spec rlast.center nr.center g4
  have hdne : d.entities ≠ [] := by
    intro hnil
    rw [hnil] at hmatch
    simp at hmatch
  have hnrOK : roomOK rmin w h nr := by
    rw [hnr]
    unfold roomOK RectangularRoom.make
    dsimp only
    refine ⟨by omega, by omega, by omega, by omega, by omega, by omega⟩
  refine ⟨by rw [pw]; simp [hw], by rw [ph]; simp [hh], ?_, ?_, ?_, ?_⟩
  · rw [List.pairwise_append]
    refine ⟨hpair, List.pairwise_singleton _ _, ?_⟩
    intro a ha b hb
    have hb2 : b = nr := by simpa using hb
    subst hb2
    have hfa := List.any_eq_false.1 hrej a ha
    exact intersects_false_symm (by simpa using hfa)
  · intro p
    rw [pt, setCells_tiles, fillSlices_tiles]
    show (if p ∈ path then floor
      else if inInner nr p then floor else d.tiles p.1 p.2) = _
    by_cases hp : p ∈ path
    · rw [if_pos hp, if_pos (Or.inr (List.mem_append.2 (Or.inr hp)))]
    · rw [if_neg hp]
      by_cases hin : inInner nr p
      · rw [if_pos hin,
          if_pos (Or.inl (inSomeInner_append.2 (Or.inr (inSomeInner_singleton.2 hin))))]
      · rw [if_neg hin, htiles p]
        have hiff : (inSomeInner ((r0 :: rs) ++ [nr]) p ∨ p ∈ corr ++ path) ↔
            (inSomeInner (r0 :: rs) p ∨ p ∈ corr) := by
          rw [inSomeInner_append, inSomeInner_singleton, List.mem_append]
          tauto
        exact if_congr hiff.symm rfl rfl
  · intro h1
    obtain ⟨hrOK, hcOK⟩ := hbnd h1
    refine ⟨?_, ?_⟩
    · intro r hr
      rcases List.mem_append.1 hr with hm | hm
      · exact hrOK r hm
      · have hrq : r = nr := by simpa using hm
        subst hrq
        exact hnrOK
    · intro c hc
      rcases List.mem_append.1 hc with hm | hm
      · exact hcOK c hm
      · obtain ⟨a1, a2, a3, a4, a5, a6⟩ := hrOK rlast (hrl ▸ List.getLast_mem _)
        obtain ⟨b1, b2, b3, b4, b5, b6⟩ := hnrOK
        have hc1 : cellInBounds w h rlast.center :=
          center_in_bounds a1 (by omega) a3 a4 (by omega) a6
        have hc2 : cellInBounds w h nr.center :=
          center_in_bounds b1 (by omega) b3 b4 (by omega) b6
        obtain ⟨m1, m2, m3, m4⟩ := tb c hm
        obtain ⟨c1a, c1b, c1c, c1d⟩ := hc1
        obtain ⟨c2a, c2b, c2c, c2d⟩ := hc2
        exact ⟨by omega, by omega, by omega, by omega⟩
  · have hne2 : ((d.fillSlices nr.inner.1 nr.inner.2 floor).setCells path floor).entities
        ≠ [] := by
      rw [setCells_entities, fillSlices_entities]
      exact hdne
    obtain ⟨hh2, -⟩ := phead hne2
    rw [hh2, setCells_entities, fillSlices_entities]
    exact hmatch

theorem genLoop_inv (rmin rmax mm w h : Int) (p0 : Entity) :
    ∀ (n : Nat) (d : GameMap) (rooms : List RectangularRoom) (corr : List (Int × Int))
      (g : RNG) (res : GameMap × List RectangularRoom × List (Int × Int) × RNG),
      Inv rmin w h p0 d rooms corr →
      genLoop rmin rmax mm n d rooms corr g = .ok res →
      Inv rmin w h p0 res.1 res.2.1 res.2.2.1 := by
  intro n
  induction n with
  | zero =>
    intro d rooms corr g res hInv hrun
    simp only [genLoop, Except.ok.injEq] at hrun
    subst hrun
    exact hInv
  | succ n ih =>
    intro d rooms corr g res hInv hrun
    simp only [genLoop] at hrun
    split at hrun
    · exact absurd hrun (by simp)
    · rename_i rw1 g1 heqrw
      split at hrun
      · exact absurd hrun (by simp)
      · rename_i rh1 g2 heqrh
        split at hrun
        · exact absurd hrun (by simp)
        · rename_i x g3 heqx
          split at hrun
          · exact absurd hrun (by simp)
          · rename_i y g4 heqy
            split at hrun
            · exact ih _ _ _ _ _ hInv hrun
            · rename_i hrej
              cases rooms with
              | nil =>
                split at hrun
                · exact absurd hrun (by simp)
                · rename_i d2 g5 heqpe
                  exact ih _ _ _ _ _
                    (inv_accept_first hInv heqrw heqrh heqx heqy heqpe) hrun
              | cons r0 rs =>
                split at hrun
                · exact absurd hrun (by simp)
                · rename_i d2 g5 heqpe
                  exact ih _ _ _ _ _
                    (inv_accept_later hInv heqrw heqrh heqx heqy
                      (by simpa using hrej) heqpe) hrun

theorem Inv_init (rmin w h : Int) (p0 : Entity) :
    Inv rmin w h p0 (GameMap.new w h [p0]) [] [] := by
  refine ⟨rfl, rfl, List.Pairwise.nil, ?_, ?_, rfl, rfl⟩
  · intro p
    rw [new_tiles, if_neg]
    rintro (hr | hc)
    · obtain ⟨r, hr, -⟩ := hr
      simp at hr
    · simp at hc
  · intro h1
    exact ⟨fun r hr => absurd hr (by simp), fun c hc => absurd hc (by simp)⟩

theorem runDungeon_inv {mr : Nat} {rmin rmax w h mm : Int} {p0 : Entity} {g : RNG}
    {res : GameMap × List RectangularRoom × List (Int × Int) × RNG}
    (hrun : runDungeon mr rmin rmax w h mm p0 g = .ok res) :
    Inv rmin w h p0 res.1 res.2.1 res.2.2.1 :=
  genLoop_inv rmin rmax mm w h p0 mr _ [] [] g res (Inv_init rmin w h p0) hrun

theorem run_destruct {mr : Nat} {rmin rmax w h mm : Int} {p0 : Entity} {g : RNG}
    {rooms : List RectangularRoom}
    (hr : runRooms mr rmin rmax w h mm p0 g = some rooms) :
    ∃ res : GameMap × List RectangularRoom × List (Int × Int) × RNG,
      runDungeon mr rmin rmax w h mm p0 g = .ok res ∧ res.2.1 = rooms := by
  unfold runRooms at hr
  cases hrd : runDungeon mr rmin rmax w h mm p0 g with
  | error e =>
    rw [hrd] at hr
    simp [Except.toOption] at hr
  | ok t =>
    rw [hrd] at hr
    simp only [Except.toOption, Option.map_some] at hr
    exact ⟨t, rfl, by simpa using hr⟩

/-- C1: in every successful `generate_dungeon` run, the accepted rooms are
pairwise non-intersecting: for all accepted room indices `i ≠ j`,
`intersects` of the two rooms returns `false`, because every candidate that
intersects a previously accepted room is abandoned before being carved or
appended. -/
theorem generate_dungeon_rooms_pairwise_disjoint
    (mr : Nat) (rmin rmax w h mm : Int) (p0 : Entity) (g : RNG)
    (rooms : List RectangularRoom)
    (hr : runRooms mr rmin rmax w h mm p0 g = some rooms) :
    ∀ (i j : Nat) (hi : i < rooms.length) (hj : j < rooms.length), i ≠ j →
      (rooms.get ⟨i, hi⟩).intersects (rooms.get ⟨j, hj⟩) = false := by
  obtain ⟨res, hok, hrr⟩ := run_destruct hr
  have hpair := (runDungeon_inv hok).2.2.1
  rw [hrr] at hpair
  intro i j hi hj hij
  rcases Nat.lt_or_ge i j with hlt | hge
  · exact List.pairwise_iff_get.1 hpair ⟨i, hi⟩ ⟨j, hj⟩ hlt
  · have hlt : j < i := by omega
    exact intersects_false_symm (List.pairwise_iff_get.1 hpair ⟨j, hj⟩ ⟨i, hi⟩ hlt)

theorem generate_dungeon_rooms_pairwise_disjoint_witness :
    runRooms 2 3 3 20 20 0 (Entity.mk .player 0 0) ⟨fun n => if n = 7 then 10 else 0, 0⟩ =
      some [RectangularRoom.mk 0 0 3 3, RectangularRoom.mk 10 0 13 3] ∧
    (RectangularRoom.mk 0 0 3 3).intersects (RectangularRoom.mk 10 0 13 3) = false := by
  have h1 : runRooms 2 3 3 20 20 0 (Entity.mk .player 0 0)
      ⟨fun n => if n = 7 then 10 else 0, 0⟩ =
      some [RectangularRoom.mk 0 0 3 3, RectangularRoom.mk 10 0 13 3] := by decide
  refine ⟨h1, ?_⟩
  have h2 := generate_dungeon_rooms_pairwise_disjoint 2 3 3 20 20 0 (Entity.mk .player 0 0)
    ⟨fun n => if n = 7 then 10 else 0, 0⟩ _ h1 0 1 (by decide) (by decide) (by decide)
  exact h2

/-- C2: after a successful `generate_dungeon` run, every cell in the `inner`
region of some accepted room holds the floor tile, and every cell outside all
accepted inner regions and outside every carved corridor cell still holds the
wall tile the grid was pre-filled with. -/
theorem generate_dungeon_frame
    (mr : Nat) (rmin rmax w h mm : Int) (p0 : Entity) (g : RNG)
    (rooms : List RectangularRoom) (corr : List (Int × Int))
    (hr : runRooms mr rmin rmax w h mm p0 g = some rooms)
    (hc : runCorridors mr rmin rmax w h mm p0 g = some corr) :
    (∀ p : Int × Int, inSomeInner rooms p →
      runTiles mr rmin rmax w h mm p0 g p = some floor) ∧
    (∀ p : Int × Int, ¬inSomeInner rooms p → p ∉ corr →
      runTiles mr rmin rmax w h mm p0 g p = some wall) := by
  obtain ⟨res, hok, hrr⟩ := run_destruct hr
  unfold runCorridors at hc
  rw [hok] at hc
  simp only [Except.toOption, Option.map_some] at hc
  have hcc : res.2.2.1 = corr := by simpa using hc
  have htiles := (runDungeon_inv hok).2.2.2.1
  subst hrr
  subst hcc
  constructor
  · intro p hp
    unfold runTiles
    rw [hok]
    show some (res.1.tiles p.1 p.2) = some floor
    rw [htiles p, if_pos (Or.inl hp)]
  · intro p hp1 hp2
    unfold runTiles
    rw [hok]
    show some (res.1.tiles p.1 p.2) = some wall
    rw [htiles p, if_neg]
    rintro (hq | hq)
    · exact hp1 hq
    · exact hp2 hq

theorem generate_dungeon_frame_witness :
    runRooms 1 4 4 10 10 0 (Entity.mk .player 0 0) ⟨fun _ => 0, 0⟩ =
      some [RectangularRoom.mk 0 0 4 4] ∧
    runCorridors 1 4 4 10 10 0 (Entity.mk .player 0 0) ⟨fun _ => 0, 0⟩ = some [] ∧
    inSomeInner [RectangularRoom.mk 0 0 4 4] (2, 2) ∧
    runTiles 1 4 4 10 10 0 (Entity.mk .player 0 0) ⟨fun _ => 0, 0⟩ (2, 2) = some floor ∧
    ¬inSomeInner [RectangularRoom.mk 0 0 4 4] (0, 0) ∧
    runTiles 1 4 4 10 10 0 (Entity.mk .player 0 0) ⟨fun _ => 0, 0⟩ (0, 0) = some wall := by
  have h1 : runRooms 1 4 4 10 10 0 (Entity.mk .player 0 0) ⟨fun _ => 0, 0⟩ =
      some [RectangularRoom.mk 0 0 4 4] := by decide
  have h2 : runCorridors 1 4 4 10 10 0 (Entity.mk .player 0 0) ⟨fun _ => 0, 0⟩ =
      some [] := by decide
  have h3 := generate_dungeon_frame 1 4 4 10 10 0 (Entity.mk .player 0 0)
    ⟨fun _ => 0, 0⟩ _ _ h1 h2
  exact ⟨h1, h2, by decide, h3.1 (2, 2) (by decide), by decide,
    h3.2 (0, 0) (by decide) (by decide)⟩

/-- C3 counterexample: for the concrete room with corners `(0,0)` and `(6,6)`,
the monster-position candidate set `[x1+1, x2-1] × [y1+1, y2-1]` (inclusive)
is EQUAL to the carve region `inner()` `[x1+1, x2) × [y1+1, y2)`, hence it is
not strictly narrower than `inner()` (not a proper subset), contradicting the
claim. -/
theorem monster_region_not_proper_subset :
    monsterBox (RectangularRoom.mk 0 0 6 6) = innerBox (RectangularRoom.mk 0 0 6 6) ∧
    ¬monsterBox (RectangularRoom.mk 0 0 6 6) ⊂ innerBox (RectangularRoom.mk 0 0 6 6) := by
  constructor
  · decide
  · decide

/-- C3 (amended): each placement trial draws its position from
`[x1+1, x2-1] × [y1+1, y2-1]`, inclusive on both ends; this candidate set
coincides exactly with the room's carve region `inner()` (it is not a proper
subset of it), so every monster a successful `place_entities` call adds
stands on a cell of the carved interior. -/
theorem place_entities_draw_region_eq_inner :
    (∀ r : RectangularRoom, monsterBox r = innerBox r) ∧
    (∀ (r : RectangularRoom) (g gx g2 gy : RNG) (x y : Int),
      randint (r.x1 + 1) (r.x2 - 1) g = .ok (x, gx) →
      randint (r.y1 + 1) (r.y2 - 1) g2 = .ok (y, gy) →
      (x, y) ∈ monsterBox r) ∧
    (∀ (room : RectangularRoom) (d : GameMap) (mm : Int) (g : RNG) (ents : List Entity),
      placedEntities room d mm g = some ents →
      ∀ e ∈ ents, e ∈ d.entities ∨ (e.x, e.y) ∈ monsterBox room) := by
  refine ⟨?_, ?_, ?_⟩
  · intro r
    unfold monsterBox innerBox
    ext ⟨a, b⟩
    simp only [Finset.mem_product, Finset.mem_Icc, Finset.mem_Ico]
    omega
  · intro r g gx g2 gy x y hx hy
    obtain ⟨hx1, hx2⟩ := randint_ok hx
    obtain ⟨hy1, hy2⟩ := randint_ok hy
    exact Finset.mem_product.2 ⟨Finset.mem_Icc.2 ⟨hx1, hx2⟩, Finset.mem_Icc.2 ⟨hy1, hy2⟩⟩
  · intro room d mm g ents hpl e he
    unfold placedEntities at hpl
    cases hpe : place_entities room d mm g with
    | error e2 =>
      rw [hpe] at hpl
      simp [Except.toOption] at hpl
    | ok t =>
      rw [hpe] at hpl
      simp only [Except.toOption, Option.map_some] at hpl
      have : t.1.entities = ents := by simpa using hpl
      subst this
      exact (place_entities_spec hpe).2.2.2.1 e he

theorem place_entities_draw_region_eq_inner_witness :
    monsterBox (RectangularRoom.mk 0 0 6 6) = innerBox (RectangularRoom.mk 0 0 6 6) ∧
    randint 1 5 ⟨fun _ => 0, 0⟩ = .ok (1, ⟨fun _ => 0, 1⟩) ∧
    ((1 : Int), (1 : Int)) ∈ monsterBox (RectangularRoom.mk 0 0 6 6) ∧
    placedEntities (RectangularRoom.mk 0 0 6 6) (GameMap.new 10 10 []) 1
        ⟨fun n => if n ≤ 1 then 1 else 0, 0⟩ = some [Entity.mk .orc 2 1] ∧
    (Entity.mk .orc 2 1 ∈ (GameMap.new 10 10 []).entities ∨
      ((Entity.mk .orc 2 1).x, (Entity.mk .orc 2 1).y) ∈
        monsterBox (RectangularRoom.mk 0 0 6 6)) := by
  have hpl : placedEntities (RectangularRoom.mk 0 0 6 6) (GameMap.new 10 10 []) 1
      ⟨fun n => if n ≤ 1 then 1 else 0, 0⟩ = some [Entity.mk .orc 2 1] := by
    have key : placedEntities (RectangularRoom.mk 0 0 6 6) (GameMap.new 10 10 []) 1
        (⟨fun n => if n ≤ 1 then 1 else 0, 0⟩ : RNG) =
        some ((if (randfloat (⟨fun n => if n ≤ 1 then 1 else 0, 3⟩ : RNG)).1 < (4 : Rat) / 5
          then (GameMap.new 10 10 []).spawn .orc 2 1
          else (GameMap.new 10 10 []).spawn .troll 2 1).entities) := rfl
    have hcoin : (randfloat (⟨fun n => if n ≤ 1 then 1 else 0, 3⟩ : RNG)).1 < (4 : Rat) / 5 := by
      show ((((if (3 : Nat) ≤ 1 then 1 else 0) % 1000000 : Nat) : Rat)) / 1000000 < (4 : Rat) / 5
      norm_num
    rw [key, if_pos hcoin]
    rfl
  refine ⟨place_entities_draw_region_eq_inner.1 _, rfl, ?_, hpl, ?_⟩
  · exact place_entities_draw_region_eq_inner.2.1 (RectangularRoom.mk 0 0 6 6)
      ⟨fun _ => 0, 0⟩ ⟨fun _ => 0, 1⟩ ⟨fun _ => 0, 0⟩ ⟨fun _ => 0, 1⟩ 1 1 rfl rfl
  · exact place_entities_draw_region_eq_inner.2.2 (RectangularRoom.mk 0 0 6 6)
      (GameMap.new 10 10 []) 1 ⟨fun n => if n ≤ 1 then 1 else 0, 0⟩ _ hpl
      (Entity.mk .orc 2 1) (by decide)

/-- C4 counterexample: `center` follows Python `int((x1+x2)/2)`, which
truncates toward zero; on the room with `x1 = -3, y1 = 0, x2 = 0, y2 = 0`
this differs from the floor-divided midpoint (`-1` versus `-2`), so `center`
is not the floor-divided midpoint for every room. -/
theorem center_not_floor_div_on_negative :
    (RectangularRoom.mk (-3) 0 0 0).center ≠
      (Int.fdiv (-3 + 0) 2, Int.fdiv (0 + 0) 2) := by decide

/-- C4 (amended): for every room whose coordinate sums are non-negative —
true of every room the generator constructs — `center` returns the
floor-divided midpoint `((x1+x2) fdiv 2, (y1+y2) fdiv 2)` with no error
conditions; in general `center` truncates the midpoint toward zero.  In
particular the room with `x1=0, y1=0, x2=10, y2=6` has center `(5, 3)`. -/
theorem center_floor_div_midpoint :
    (∀ r : RectangularRoom, 0 ≤ r.x1 + r.x2 → 0 ≤ r.y1 + r.y2 →
      r.center = (Int.fdiv (r.x1 + r.x2) 2, Int.fdiv (r.y1 + r.y2) 2)) ∧
    (RectangularRoom.mk 0 0 10 6).center = (5, 3) := by
  constructor
  · intro r hx hy
    unfold RectangularRoom.center
    rw [tdiv_two_eq_ediv hx, tdiv_two_eq_ediv hy,
      Int.fdiv_eq_ediv _ (by omega), Int.fdiv_eq_ediv _ (by omega)]
  · decide

theorem center_floor_div_midpoint_witness :
    (0 : Int) ≤ 0 + 10 ∧ (0 : Int) ≤ 0 + 6 ∧
    (RectangularRoom.mk 0 0 10 6).center = (Int.fdiv (0 + 10) 2, Int.fdiv (0 + 6) 2) ∧
    (RectangularRoom.mk 0 0 10 6).center = (5, 3) :=
  ⟨by decide, by decide,
    center_floor_div_midpoint.1 (RectangularRoom.mk 0 0 10 6) (by decide) (by decide),
    center_floor_div_midpoint.2⟩

/-- C5: for every pair of endpoints and every state of the random stream
(hence either outcome of the coin flip), the cell sequence produced by
`tunnel_between` is a connected path: its first cell is `start`, its last
cell is `stop`, and consecutive cells differ by at most one unit in each
axis (king adjacency). -/
theorem tunnel_between_connected_path (start stop : Int × Int) (g : RNG) :
    (tunnel_between start stop g).1.head? = some start ∧
    (tunnel_between start stop g).1.getLast? = some stop ∧
    List.Chain' kingAdj (tunnel_between start stop g).1 := by
  obtain ⟨-, h1, h2, h3, -⟩ := tunnel_between_spec start stop g
  exact ⟨h1, h2, h3⟩

theorem genLoop_one {rmin rmax mm : Int} {d : GameMap} {g : RNG}
    {res : GameMap × List RectangularRoom × List (Int × Int) × RNG}
    (h : genLoop rmin rmax mm 1 d [] [] g = .ok res) :
    ∃ nr, res.2.1 = [nr] ∧ res.2.2.1 = [] := by
  simp only [genLoop] at h
  split at h
  · exact absurd h (by simp)
  · split at h
    · exact absurd h (by simp)
    · split at h
      · exact absurd h (by simp)
      · split at h
        · exact absurd h (by simp)
        · split at h
          · rename_i hany
            simp at hany
          · split at h
            · exact absurd h (by simp)
            · rename_i d2 g5 heqpe
              simp only [genLoop, Except.ok.injEq] at h
              subst h
              exact ⟨_, rfl, rfl⟩

/-- C6: when `generate_dungeon` is called with `max_rooms = 1` and the run
completes, the result holds exactly one accepted room and no corridor cells,
and the player entity sits at that room's center; the single attempt cannot
be rejected because the accepted-room list is empty when it is tested. -/
theorem generate_dungeon_single_room (rmin rmax w h mm : Int) (p0 : Entity) (g : RNG)
    (rooms : List RectangularRoom)
    (hr : runRooms 1 rmin rmax w h mm p0 g = some rooms) :
    rooms.length = 1 ∧
    runCorridors 1 rmin rmax w h mm p0 g = some [] ∧
    runPlayerPos 1 rmin rmax w h mm p0 g =
      some (rooms.headD (RectangularRoom.mk 0 0 0 0)).center := by
  obtain ⟨res, hok, hrr⟩ := run_destruct hr
  obtain ⟨nr, h1, h2⟩ := genLoop_one hok
  obtain ⟨-, -, -, -, -, hmatch⟩ := runDungeon_inv hok
  have hhead : res.1.entities.head? =
      some { p0 with x := nr.center.1, y := nr.center.2 } := by
    rw [h1] at hmatch
    exact hmatch
  subst hrr
  refine ⟨by rw [h1]; rfl, ?_, ?_⟩
  · unfold runCorridors
    rw [hok]
    show some res.2.2.1 = some []
    rw [h2]
  · unfold runPlayerPos
    rw [hok]
    show res.1.entities.head?.map (fun e => (e.x, e.y)) = _
    rw [hhead, h1]
    rfl

theorem generate_dungeon_single_room_witness :
    runRooms 1 4 4 10 10 0 (Entity.mk .player 0 0) ⟨fun _ => 0, 0⟩ =
      some [RectangularRoom.mk 0 0 4 4] ∧
    [RectangularRoom.mk 0 0 4 4].length = 1 ∧
    runCorridors 1 4 4 10 10 0 (Entity.mk .player 0 0) ⟨fun _ => 0, 0⟩ = some [] ∧
    runPlayerPos 1 4 4 10 10 0 (Entity.mk .player 0 0) ⟨fun _ => 0, 0⟩ =
      some (([RectangularRoom.mk 0 0 4 4].headD (RectangularRoom.mk 0 0 0 0)).center) := by
  have h1 : runRooms 1 4 4 10 10 0 (Entity.mk .player 0 0) ⟨fun _ => 0, 0⟩ =
      some [RectangularRoom.mk 0 0 4 4] := by decide
  have h2 := generate_dungeon_single_room 4 4 10 10 0 (Entity.mk .player 0 0)
    ⟨fun _ => 0, 0⟩ _ h1
  exact ⟨h1, h2.1, h2.2.1, h2.2.2⟩

/-- C7: generation is deterministic in the random stream: two runs from
equal raw streams, with identical parameters, produce identical results —
the same tile grid, the same accepted rooms, the same corridor cells and the
same entity list in the same order. -/
theorem generate_dungeon_deterministic (mr : Nat) (rmin rmax w h mm : Int) (p0 : Entity)
    (s1 s2 : Nat → Nat) (hseq : ∀ n, s1 n = s2 n) :
    runDungeon mr rmin rmax w h mm p0 ⟨s1, 0⟩ = runDungeon mr rmin rmax w h mm p0 ⟨s2, 0⟩ ∧
    generate_dungeon mr rmin rmax w h mm p0 ⟨s1, 0⟩ =
      generate_dungeon mr rmin rmax w h mm p0 ⟨s2, 0⟩ := by
  have hs : s1 = s2 := funext hseq
  subst hs
  exact ⟨rfl, rfl⟩

theorem generate_dungeon_deterministic_witness :
    runDungeon 2 3 3 20 20 1 (Entity.mk .player 0 0) ⟨fun _ => 0, 0⟩ =
      runDungeon 2 3 3 20 20 1 (Entity.mk .player 0 0) ⟨fun _ => 0, 0⟩ ∧
    generate_dungeon 2 3 3 20 20 1 (Entity.mk .player 0 0) ⟨fun _ => 0, 0⟩ =
      generate_dungeon 2 3 3 20 20 1 (Entity.mk .player 0 0) ⟨fun _ => 0, 0⟩ :=
  generate_dungeon_deterministic 2 3 3 20 20 1 (Entity.mk .player 0 0)
    (fun _ => 0) (fun _ => 0) (fun _ => rfl)

/-- C8: violated parameters make `generate_dungeon` fail fast on the first
attempt with the `ValueError` Python's `randint` raises on an empty range:
if `room_min_size > room_max_size`, or the map is too narrow for even the
smallest room (`map_width ≤ room_min_size`), the run returns that error for
every random stream — it neither loops beyond the bounded attempt budget nor
returns a map. -/
theorem generate_dungeon_bad_params_error (mr : Nat) (rmin rmax w h mm : Int)
    (p0 : Entity) (g : RNG) (hmr : 1 ≤ mr)
    (hbad : rmax < rmin ∨ (rmin ≤ rmax ∧ w ≤ rmin)) :
    runDungeon mr rmin rmax w h mm p0 g = .error "empty range for randrange()" := by
  obtain ⟨n, rfl⟩ : ∃ n, mr = n + 1 := ⟨mr - 1, by omega⟩
  unfold runDungeon
  rcases hbad with hlt | ⟨hle, hsm⟩
  · simp only [genLoop]
    rw [randint_error hlt]
  · have hok1 : randint rmin rmax g =
        .ok (rmin + (g.next.1 : Int) % (rmax - rmin + 1), g.next.2) := by
      unfold randint
      rw [if_neg (not_lt.2 hle)]
    have hok2 : randint rmin rmax g.next.2 =
        .ok (rmin + (g.next.2.next.1 : Int) % (rmax - rmin + 1), g.next.2.next.2) := by
      unfold randint
      rw [if_neg (not_lt.2 hle)]
    have hv1 : rmin ≤ rmin + (g.next.1 : Int) % (rmax - rmin + 1) := by
      have := Int.emod_nonneg (g.next.1 : Int) (show rmax - rmin + 1 ≠ 0 by omega)
      omega
    simp only [genLoop]
    rw [hok1]
    show (match randint rmin rmax g.next.2 with
      | .error e => Except.error e
      | .ok (room_height, g2) => _) = _
    rw [hok2]
    show (match randint 0 ((GameMap.new w h [p0]).width -
        (rmin + (g.next.1 : Int) % (rmax - rmin + 1)) - 1) g.next.2.next.2 with
      | .error e => Except.error e
      | .ok (x, g3) => _) = _
    rw [randint_error (by rw [new_width]; omega)]

theorem generate_dungeon_bad_params_error_witness :
    1 ≤ (1 : Nat) ∧ ((3 : Int) < 5 ∨ ((5 : Int) ≤ 3 ∧ (10 : Int) ≤ 5)) ∧
    runDungeon 1 5 3 10 10 0 (Entity.mk .player 0 0) ⟨fun _ => 0, 0⟩ =
      .error "empty range for randrange()" :=
  ⟨Nat.le_refl 1, Or.inl (by decide),
    generate_dungeon_bad_params_error 1 5 3 10 10 0 (Entity.mk .player 0 0)
      ⟨fun _ => 0, 0⟩ (Nat.le_refl 1) (Or.inl (by decide))⟩

/-- C9: in a successful run (with the positive `room_min_size` the input
contract requires), every accepted room keeps one tile of margin from the far
edge (`0 ≤ x1`, `x2 ≤ width - 1`, `0 ≤ y1`, `y2 ≤ height - 1` — the top-left
corner is drawn from `[0, width - room_width - 1]` and likewise for `y`), and
consequently every cell written during generation — the inner region of an
accepted room or a corridor cell between room centers — lies inside the
`width × height` grid. -/
theorem generate_dungeon_writes_in_bounds (mr : Nat) (rmin rmax w h mm : Int)
    (p0 : Entity) (g : RNG) (rooms : List RectangularRoom) (corr : List (Int × Int))
    (hmin : 1 ≤ rmin)
    (hr : runRooms mr rmin rmax w h mm p0 g = some rooms)
    (hc : runCorridors mr rmin rmax w h mm p0 g = some corr) :
    (∀ r ∈ rooms, 0 ≤ r.x1 ∧ r.x2 ≤ w - 1 ∧ 0 ≤ r.y1 ∧ r.y2 ≤ h - 1) ∧
    (∀ p : Int × Int, inSomeInner rooms p ∨ p ∈ corr →
      0 ≤ p.1 ∧ p.1 < w ∧ 0 ≤ p.2 ∧ p.2 < h) := by
  obtain ⟨res, hok, hrr⟩ := run_destruct hr
  unfold runCorridors at hc
  rw [hok] at hc
  have hcc : res.2.2.1 = corr := by simpa [Except.toOption] using hc
  obtain ⟨-, -, -, -, hbnd, -⟩ := runDungeon_inv hok
  obtain ⟨hrOK, hcOK⟩ := hbnd hmin
  subst hrr
  subst hcc
  constructor
  · intro r hrm
    obtain ⟨a1, a2, a3, a4, a5, a6⟩ := hrOK r hrm
    exact ⟨a1, a3, a4, a6⟩
  · rintro p (hp | hp)
    · obtain ⟨r, hrm, hin⟩ := hp
      obtain ⟨a1, a2, a3, a4, a5, a6⟩ := hrOK r hrm
      unfold inInner inSlices RectangularRoom.inner at hin
      dsimp only at hin
      obtain ⟨b1, b2, b3, b4⟩ := hin
      exact ⟨by omega, by omega, by omega, by omega⟩
    · obtain ⟨c1, c2, c3, c4⟩ := hcOK p hp
      exact ⟨by omega, by omega, by omega, by omega⟩

theorem generate_dungeon_writes_in_bounds_witness :
    (1 : Int) ≤ 4 ∧
    runRooms 1 4 4 10 10 0 (Entity.mk .player 0 0) ⟨fun _ => 0, 0⟩ =
      some [RectangularRoom.mk 0 0 4 4] ∧
    runCorridors 1 4 4 10 10 0 (Entity.mk .player 0 0) ⟨fun _ => 0, 0⟩ = some [] ∧
    (0 ≤ (RectangularRoom.mk 0 0 4 4).x1 ∧ (RectangularRoom.mk 0 0 4 4).x2 ≤ 10 - 1 ∧
      0 ≤ (RectangularRoom.mk 0 0 4 4).y1 ∧ (RectangularRoom.mk 0 0 4 4).y2 ≤ 10 - 1) ∧
    (0 ≤ (2 : Int) ∧ (2 : Int) < 10 ∧ 0 ≤ (2 : Int) ∧ (2 : Int) < 10) := by
  have h1 : runRooms 1 4 4 10 10 0 (Entity.mk .player 0 0) ⟨fun _ => 0, 0⟩ =
      some [RectangularRoom.mk 0 0 4 4] := by decide
  have h2 : runCorridors 1 4 4 10 10 0 (Entity.mk .player 0 0) ⟨fun _ => 0, 0⟩ =
      some [] := by decide
  have h3 := generate_dungeon_writes_in_bounds 1 4 4 10 10 0 (Entity.mk .player 0 0)
    ⟨fun _ => 0, 0⟩ _ _ (by decide) h1 h2
  exact ⟨by decide, h1, h2,
    h3.1 (RectangularRoom.mk 0 0 4 4) (by decide),
    h3.2 (2, 2) (Or.inl (by decide))⟩

/-- C10: whenever at least one room is accepted and `room_min_size ≥ 2`, the
player ends on a walkable floor tile: for every room with non-negative
corners and extents of at least 2, `center` lies inside the `inner` carve
region; the first accepted room is carved before the player is placed at its
center; and the floor tile is walkable. -/
theorem generate_dungeon_player_on_walkable_floor :
    (∀ r : RectangularRoom, 0 ≤ r.x1 → 0 ≤ r.y1 → r.x1 + 2 ≤ r.x2 → r.y1 + 2 ≤ r.y2 →
      inInner r r.center) ∧
    ∀ (mr : Nat) (rmin rmax w h mm : Int) (p0 : Entity) (g : RNG)
      (r0 : RectangularRoom) (rs : List RectangularRoom) (pos : Int × Int),
      2 ≤ rmin →
      runRooms mr rmin rmax w h mm p0 g = some (r0 :: rs) →
      runPlayerPos mr rmin rmax w h mm p0 g = some pos →
      pos = r0.center ∧ inInner r0 pos ∧
      runTiles mr rmin rmax w h mm p0 g pos = some floor ∧ floor.walkable = true := by
  constructor
  · intro r h1 h2 h3 h4
    exact center_mem_inner h1 h2 h3 h4
  · intro mr rmin rmax w h mm p0 g r0 rs pos hmin hr hpp
    obtain ⟨res, hok, hrr⟩ := run_destruct hr
    obtain ⟨-, -, -, htiles, hbnd, hmatch⟩ := runDungeon_inv hok
    rw [hrr] at hmatch
    unfold runPlayerPos at hpp
    rw [hok] at hpp
    have hpp2 : res.1.entities.head?.map (fun e => (e.x, e.y)) = some pos := hpp
    rw [hmatch] at hpp2
    have hpos : pos = r0.center := (Option.some.inj hpp2).symm
    have hr0mem : r0 ∈ res.2.1 := by
      rw [hrr]
      exact List.mem_cons_self r0 rs
    obtain ⟨a1, a2, a3, a4, a5, a6⟩ := (hbnd (by omega)).1 r0 hr0mem
    have hin : inInner r0 r0.center := center_mem_inner a1 a4 (by omega) (by omega)
    subst hpos
    refine ⟨rfl, hin, ?_, rfl⟩
    unfold runTiles
    rw [hok]
    show some (res.1.tiles r0.center.1 r0.center.2) = some floor
    rw [htiles r0.center, if_pos (Or.inl ⟨r0, hr0mem, hin⟩)]

theorem generate_dungeon_player_on_walkable_floor_witness :
    inInner (RectangularRoom.mk 0 0 4 4) (RectangularRoom.mk 0 0 4 4).center ∧
    runRooms 1 4 4 10 10 0 (Entity.mk .player 0 0) ⟨fun _ => 0, 0⟩ =
      some [RectangularRoom.mk 0 0 4 4] ∧
    runPlayerPos 1 4 4 10 10 0 (Entity.mk .player 0 0) ⟨fun _ => 0, 0⟩ = some (2, 2) ∧
    ((2, 2) : Int × Int) = (RectangularRoom.mk 0 0 4 4).center ∧
    inInner (RectangularRoom.mk 0 0 4 4) (2, 2) ∧
    runTiles 1 4 4 10 10 0 (Entity.mk .player 0 0) ⟨fun _ => 0, 0⟩ (2, 2) = some floor ∧
    floor.walkable = true := by
  have h1 : runRooms 1 4 4 10 10 0 (Entity.mk .player 0 0) ⟨fun _ => 0, 0⟩ =
      some [RectangularRoom.mk 0 0 4 4] := by decide
  have h2 : runPlayerPos 1 4 4 10 10 0 (Entity.mk .player 0 0) ⟨fun _ => 0, 0⟩ =
      some (2, 2) := by decide
  have h3 := generate_dungeon_player_on_walkable_floor.2 1 4 4 10 10 0
    (Entity.mk .player 0 0) ⟨fun _ => 0, 0⟩ (RectangularRoom.mk 0 0 4 4) [] (2, 2)
    (by decide) h1 h2
  exact ⟨generate_dungeon_player_on_walkable_floor.1 (RectangularRoom.mk 0 0 4 4)
    (by decide) (by decide) (by decide) (by decide), h1, h2, h3.1, h3.2.1, h3.2.2.1, h3.2.2.2⟩

end ZenKai
